import Mathlib

/-!
# Verification of the moex_bot live risk-control core

A shallow embedding of the risk, market-data and order-submission logic of
`moex_bot` (`core/risk.py`, `core/data_provider.py`, `core/live_trading.py`),
with theorems settling the specification's claims about it.

Modelling conventions:

* Python floats are modelled as exact rationals (`ℚ`); the code performs no
  operation whose claim-relevant behaviour depends on rounding, and the
  literal guard `1e-9` is carried over as the rational `1/10^9`.
* Python dicts keyed by symbol are association lists with unique keys and
  Python's insertion-order update semantics (`alistSet` replaces in place,
  appends when absent; `alistErase` models `del`).
* The ambient clock is passed explicitly: `dt.date.today()` becomes a `today`
  day-index argument, `time.monotonic()` a `now` argument.
* Logging, Telegram notification and the CSV risk journal are I/O side
  effects with no influence on the control state; they are omitted.
-/

namespace MoexBot

/-- Python `str.upper()`, character-wise (tickers are ASCII, where
`str.upper` is exactly per-character uppercasing). Structural, so that the
kernel can evaluate it on witnesses. -/
def pyUpper (s : String) : String := ⟨s.data.map Char.toUpper⟩

/-- Python `str.lower()`, character-wise (broker statuses are ASCII). -/
def pyLower (s : String) : String := ⟨s.data.map Char.toLower⟩

/-- Whether `kw` is a leading run of `text` (helper for `hasSub`). -/
def leadsWith : List Char → List Char → Bool
  | [], _ => true
  | _ :: _, [] => false
  | a :: as, b :: bs => a == b && leadsWith as bs

/-- Contiguous-substring occurrence over character lists (helper for
Python's `kw in s`). -/
def hasSub (text kw : List Char) : Bool :=
  match text with
  | [] => kw.isEmpty
  | _ :: rest => leadsWith kw text || hasSub rest kw

/-- Python's `kw in s` substring test. -/
def strContains (s kw : String) : Bool := hasSub s.data kw.data

/-- Association-list lookup with decidable string keys (Python `dict.get`). -/
def alistLookup {β : Type} : List (String × β) → String → Option β
  | [], _ => none
  | (k, v) :: rest, s => if k = s then some v else alistLookup rest s

/-- Association-list update (Python `d[k] = v`): replaces in place when the
key is present, appends otherwise — preserving dict insertion order. -/
def alistSet {β : Type} : List (String × β) → String → β → List (String × β)
  | [], s, v => [(s, v)]
  | (k, w) :: rest, s, v =>
      if k = s then (s, v) :: rest else (k, w) :: alistSet rest s v

/-- Association-list removal (Python `del d[k]`). -/
def alistErase {β : Type} : List (String × β) → String → List (String × β)
  | [], _ => []
  | (k, w) :: rest, s =>
      if k = s then alistErase rest s else (k, w) :: alistErase rest s

/-! ## `core/risk.py` — the RiskManager -/

/-- A position entry, as built by `RiskManager.register_entry`
(`risk.py:348-379`): the dict
`{"entry_price", "quantity", "stop_price", "take_profit", "trailing_stop",
"last_price"}`. Every creation path sets all six keys, so the defensive
`pos.get(..., default)` reads in the source never see a missing key here. -/
structure Position where
  entry_price : ℚ
  quantity : ℚ
  stop_price : ℚ
  take_profit : ℚ
  trailing_stop : ℚ
  last_price : ℚ
deriving Repr, DecidableEq

/-- Per-instrument override limits (`InstrumentLimit` dataclass). -/
structure InstrumentLimit where
  symbol : String
  max_position_pct : Option ℚ := none
  max_lots : Option ℤ := none
  max_leverage : Option ℚ := none
deriving Repr, DecidableEq

/-- The `RiskManager` dataclass (`risk.py:103-140`): configuration limits
plus the mutable risk state (`halt_trading`, equity fields, the positions
ledger). Fields irrelevant to control flow (borrow rates, monitor thread
handles, notifier and journal callables) are omitted. Defaults match the
dataclass defaults. -/
structure RiskManager where
  max_drawdown_pct : ℚ := 1/5
  max_daily_loss_pct : ℚ := 1/10
  max_position_pct : ℚ := 1/5
  per_trade_risk_pct : ℚ := 1/50
  stop_loss_pct : ℚ := 1/20
  take_profit_pct : ℚ := 1/10
  max_positions : ℤ := 5
  allow_short : Bool := false
  max_portfolio_exposure_pct : ℚ := 1
  max_leverage : ℚ := 1
  instrument_limits : List (String × InstrumentLimit) := []
  halt_trading : Bool := false
  last_equity_date : ℕ
  portfolio_equity : ℚ
  peak_equity : ℚ
  day_start_equity : ℚ
  positions : List (String × Position) := []
deriving Repr, DecidableEq

/-- The float guard `1e-9` used by the source as a division floor. -/
def eps9 : ℚ := 1 / 1000000000

/-- `RiskManager._current_gross_exposure` (`risk.py:319-327`):
`Σ |quantity| × last_price` over open positions. The source's
`pos.get("last_price", pos.get("entry_price", 0.0))` fallback is dead for
positions built by `register_entry`, which always store `last_price`. -/
def RiskManager.currentGrossExposure (rm : RiskManager) : ℚ :=
  rm.positions.foldl (fun acc p => acc + |p.2.quantity| * p.2.last_price) 0

/-- `RiskManager.update_equity` (`risk.py:270-293`). `today` is the ambient
`dt.date.today()`. Sets equity; on a new calendar day resets
`day_start_equity` and clears `halt_trading`; ratchets `peak_equity`; the
drawdown check only notifies (no state change); a daily loss at or above
`max_daily_loss_pct` clears every position and halts trading. -/
def RiskManager.update_equity (rm : RiskManager) (new_equity : ℚ) (today : ℕ) :
    RiskManager :=
  let rm := { rm with portfolio_equity := new_equity }
  let rm :=
    if today ≠ rm.last_equity_date then
      { rm with day_start_equity := new_equity, last_equity_date := today,
                halt_trading := false }
    else rm
  let rm :=
    if new_equity > rm.peak_equity then { rm with peak_equity := new_equity } else rm
  let daily_loss := (rm.day_start_equity - new_equity) / max rm.day_start_equity eps9
  if daily_loss ≥ rm.max_daily_loss_pct then
    { rm with positions := [], halt_trading := true }
  else rm

/-- The exposure-cap percentage computed inside `allowed_position_size`
(`risk.py:303-306`): `max_leverage` when positive, else `1.0`; then reduced
by `max_portfolio_exposure_pct` only when that value is neither `0.0` nor
`1.0` (the source's `not in (0.0, 1.0)` sentinel test). -/
def RiskManager.exposureCapPct (rm : RiskManager) : ℚ :=
  let cap := if rm.max_leverage > 0 then rm.max_leverage else 1
  if rm.max_portfolio_exposure_pct ≠ 0 ∧ rm.max_portfolio_exposure_pct ≠ 1 then
    min cap rm.max_portfolio_exposure_pct
  else cap

/-- The per-instrument override block of `allowed_position_size`
(`risk.py:310-316`). Python truthiness: the block runs only for a truthy
(non-`None`, non-empty) symbol; a `max_position_pct` override of `0.0` is
falsy and skipped; a `max_lots` of `0` is `is not None` and applies. -/
def RiskManager.applyInstrumentLimits (rm : RiskManager) (price : ℚ)
    (symbol : Option String) (size : ℚ) : ℚ :=
  match symbol with
  | none => size
  | some s =>
      if s.data.isEmpty then size
      else
        match alistLookup rm.instrument_limits (pyUpper s) with
        | none => size
        | some limit =>
            let size :=
              match limit.max_position_pct with
              | some v =>
                  if v ≠ 0 then min size (rm.portfolio_equity * v / price)
                  else size
              | none => size
            match limit.max_lots with
            | some n => min size (n : ℚ)
            | none => size

/-- `RiskManager.allowed_position_size` (`risk.py:295-317`). Returns `0` on
halt or non-positive price; otherwise sizes by per-trade risk, caps by
`max_position_pct`, caps by remaining portfolio capacity under
`exposureCapPct`, applies the per-instrument overrides, and floors to a
non-negative integer (`int(max(0, size))` truncates toward zero, which on a
non-negative value is the floor). -/
def RiskManager.allowed_position_size (rm : RiskManager) (price : ℚ)
    (symbol : Option String) : ℤ :=
  if rm.halt_trading ∨ price ≤ 0 then 0
  else
    let risk_amount := rm.portfolio_equity * rm.per_trade_risk_pct
    let stop_amount := price * rm.stop_loss_pct
    let base_size := risk_amount / max stop_amount eps9
    let max_size_by_equity := rm.portfolio_equity * rm.max_position_pct / price
    let size := min base_size max_size_by_equity
    let total_value := rm.currentGrossExposure
    let allowed_portfolio_value :=
      max 0 (rm.portfolio_equity * rm.exposureCapPct - total_value)
    let max_by_portfolio := allowed_portfolio_value / max price eps9
    let size := min size max_by_portfolio
    ⌊max 0 (rm.applyInstrumentLimits price symbol size)⌋

/-- `RiskManager.update_position_price` (`risk.py:339-346`): set
`last_price` on an existing position; a symbol with no open position is
left untouched (no insert). The `float(price)` conversion cannot fail on a
rational. -/
def RiskManager.update_position_price (rm : RiskManager) (symbol : String)
    (price : ℚ) : RiskManager :=
  match alistLookup rm.positions symbol with
  | none => rm
  | some pos =>
      { rm with positions :=
          alistSet rm.positions symbol { pos with last_price := price } }

/-- `RiskManager.register_entry` (`risk.py:348-379`): rejected (state
unchanged) on halt, on a full book, on zero quantity, or on a short when
shorting is disabled; otherwise stores the position with direction-symmetric
stop / take-profit levels and trailing stop initialised to the stop. -/
def RiskManager.register_entry (rm : RiskManager) (symbol : String)
    (price quantity : ℚ) : RiskManager :=
  if rm.halt_trading then rm
  else if rm.max_positions ≤ (rm.positions.length : ℤ) then rm
  else if quantity = 0 then rm
  else if quantity < 0 ∧ rm.allow_short = false then rm
  else
    let is_short := quantity < 0
    let stop_price :=
      if is_short then price * (1 + rm.stop_loss_pct)
      else price * (1 - rm.stop_loss_pct)
    let take_profit :=
      if is_short then price * (1 - rm.take_profit_pct)
      else price * (1 + rm.take_profit_pct)
    let pos : Position :=
      { entry_price := price, quantity := quantity,
        stop_price := stop_price, take_profit := take_profit,
        trailing_stop := stop_price, last_price := price }
    { rm with positions := alistSet rm.positions symbol pos }

/-- `RiskManager.check_exit` (`risk.py:381-412`): returns whether an exit
fired, and the state with `last_price` updated and the trailing stop
ratcheted (upward for longs, downward for shorts; the exit comparison reads
the ratcheted value). A symbol with no open position returns `false`
unchanged. -/
def RiskManager.check_exit (rm : RiskManager) (symbol : String)
    (current_price : ℚ) : Bool × RiskManager :=
  match alistLookup rm.positions symbol with
  | none => (false, rm)
  | some pos =>
      if ¬ pos.quantity < 0 then
        let new_trailing := current_price * (1 - rm.stop_loss_pct)
        let ts :=
          if new_trailing > pos.trailing_stop then new_trailing
          else pos.trailing_stop
        let pos' := { pos with last_price := current_price, trailing_stop := ts }
        let rm' := { rm with positions := alistSet rm.positions symbol pos' }
        if current_price ≤ ts then (true, rm')
        else if current_price ≥ pos.take_profit then (true, rm')
        else (false, rm')
      else
        let new_trailing := current_price * (1 + rm.stop_loss_pct)
        let ts :=
          if new_trailing < pos.trailing_stop then new_trailing
          else pos.trailing_stop
        let pos' := { pos with last_price := current_price, trailing_stop := ts }
        let rm' := { rm with positions := alistSet rm.positions symbol pos' }
        if current_price ≥ ts then (true, rm')
        else if current_price ≤ pos.take_profit then (true, rm')
        else (false, rm')

/-- `RiskManager.exit_position` (`risk.py:414-418`): delete the symbol's
position when present, otherwise do nothing. -/
def RiskManager.exit_position (rm : RiskManager) (symbol : String) :
    RiskManager :=
  match alistLookup rm.positions symbol with
  | none => rm
  | some _ => { rm with positions := alistErase rm.positions symbol }

/-- `RiskManager.clear_positions` (`risk.py:420-424`): delete every
position. -/
def RiskManager.clear_positions (rm : RiskManager) : RiskManager :=
  { rm with positions := [] }

/-! ## `core/data_provider.py` — the DataProvider

A network source (`stream` / `rest`) is modelled as the outcome of calling
its `get_last_price(symbol)` now: `Except Unit (Option ℚ)` — `.error` for a
raised exception, `.ok v` for a returned value (`none` models Python
`None`). The disk layer (`_resolve_symbol_file` + `pd.read_csv` +
`_validate_history` + the close-column extraction of `latest_price`) is
file I/O; it is abstracted as the environment function `histClose`, giving
the extracted last close for a symbol and `none` when no readable history
exists. The history cache only memoises that same value, so it is folded
into the abstraction. -/

/-- `_default_validator` (`data_provider.py:20-24`): a price is valid iff it
is not `None` and strictly positive. The provider's `validator` field is
this default throughout the claims; the pluggable hook is fixed to it. -/
def defaultValidator : Option ℚ → Bool
  | some p => decide (0 < p)
  | none => false

/-- The `DataProvider` dataclass (`data_provider.py:27-63`): source handles,
cache TTL, the network-enabled flag, the in-memory price cache
(symbol ↦ (price, monotonic timestamp)), and the disk-history abstraction. -/
structure DataProvider where
  stream : Option (String → Except Unit (Option ℚ)) := none
  rest : Option (String → Except Unit (Option ℚ)) := none
  cache_ttl : ℚ := 5
  enabled : Bool := true
  cache : List (String × ℚ × ℚ) := []
  histClose : String → Option ℚ := fun _ => none

/-- `DataProvider._get_cached` (`data_provider.py:75-84`): a stale-allowed
read returns any entry; a fresh-only read returns the entry only when
`now - ts ≤ cache_ttl`. -/
def DataProvider.getCached (dp : DataProvider) (symbol : String)
    (allow_stale : Bool) (now : ℚ) : Option ℚ :=
  match alistLookup dp.cache symbol with
  | none => none
  | some (price, ts) =>
      if allow_stale then some price
      else if now - ts ≤ dp.cache_ttl then some price
      else none

/-- `DataProvider._update_cache` (`data_provider.py:68-73`). -/
def DataProvider.updateCache (dp : DataProvider) (symbol : String) (price : ℚ)
    (now : ℚ) : DataProvider :=
  { dp with cache := alistSet dp.cache symbol (price, now) }

/-- `DataProvider.enable_network` (`data_provider.py:86-89`). -/
def DataProvider.enable_network (dp : DataProvider) : DataProvider :=
  { dp with enabled := true }

/-- `DataProvider.disable_network` (`data_provider.py:91-94`). -/
def DataProvider.disable_network (dp : DataProvider) : DataProvider :=
  { dp with enabled := false }

/-- One iteration of the source loop in `get_price`
(`data_provider.py:119-130`): an absent source, a raised exception, or an
invalid returned price all yield nothing (falling through to the next
step); a validated price is surfaced. -/
def sourceResult (source : Option (String → Except Unit (Option ℚ)))
    (symbol : String) : Option ℚ :=
  match source with
  | none => none
  | some f =>
      match f symbol with
      | .error _ => none
      | .ok v => if defaultValidator v then v else none

/-- `DataProvider.latest_price` (`data_provider.py:212-240`): stale-allowed
cache read first, then the last close extracted from on-disk history
(abstracted as `histClose`; an empty / unreadable frame is `none`). The
symbol is already upper-cased by every caller in scope. -/
def DataProvider.latest_price (dp : DataProvider) (symbol : String) (now : ℚ) :
    Option ℚ :=
  match dp.getCached symbol true now with
  | some cached => some cached
  | none => dp.histClose symbol

/-- `DataProvider.get_price` (`data_provider.py:112-145`): upper-case the
symbol; with the network disabled return the (stale-allowed) cache entry;
otherwise try stream then REST (each isolated, a validated hit is cached
and returned), then the fresh cache, then the stale cache, then disk
history via `latest_price`. Returns the resolved price (or `none`) and the
provider state (mutated only by a network cache write). -/
def DataProvider.get_price (dp : DataProvider) (symbol : String) (now : ℚ) :
    Option ℚ × DataProvider :=
  let sym := pyUpper symbol
  if dp.enabled = false then (dp.getCached sym true now, dp)
  else
    match sourceResult dp.stream sym with
    | some p => (some p, dp.updateCache sym p now)
    | none =>
        match sourceResult dp.rest sym with
        | some p => (some p, dp.updateCache sym p now)
        | none =>
            match dp.getCached sym false now with
            | some cached => (some cached, dp)
            | none =>
                match dp.getCached sym true now with
                | some cached => (some cached, dp)
                | none => (dp.latest_price sym now, dp)

/-! ## `core/live_trading.py` — LiveTrader order submission

The broker object (`trader.buy` / `trader.sell`) is the environment: it is
modelled as a function from the attempt number to the outcome of that
attempt's API call — `.error` for a raised exception, `.ok r` for a
returned `OrderResult`. `time.sleep` backoff is real time with no state
effect and is omitted. -/

/-- `OrderResult` (`broker.py:40-49`). -/
structure OrderResult where
  order_id : String
  status : String := "accepted"
  lots_requested : ℤ := 0
  lots_executed : ℤ := 0
  limit_price : Option ℚ := none
  message : Option String := none
deriving Repr, DecidableEq

/-- `LiveTrader._is_success` (`live_trading.py:70-75`): the lower-cased
status must contain none of `reject`, `error`, `cancel`. -/
def is_success (r : OrderResult) : Bool :=
  let status := pyLower r.status
  !(strContains status "reject" || strContains status "error"
      || strContains status "cancel")

/-- `LiveTrader._apply_slippage` (`live_trading.py:77-87`): buys are pushed
up and sells down by `price × slippage_bps / 10000`, sells floored at 0. -/
def apply_slippage (slippage_bps : ℚ) (price : Option ℚ) (side : String) :
    Option ℚ :=
  match price with
  | none => none
  | some p =>
      let adjustment := p * (slippage_bps / 10000)
      if pyLower side = "buy" then some (p + adjustment)
      else some (max (p - adjustment) 0)

/-- One journal entry built by `_submit_with_retry` and appended by
`_record_order` (`live_trading.py:89-137`). -/
structure OrderPayload where
  side : String
  symbol : String
  figi : String
  lots : ℤ
  limit_price : Option ℚ
  order_id : String
  status : String
  lots_executed : ℤ
  message : Option String
  attempt : ℕ
deriving Repr, DecidableEq

/-- The configuration of a `LiveTrader` relevant to submission
(`live_trading.py:55-64`): the ticker→FIGI mapper, slippage in basis
points, and the retry bound. -/
structure LiveTrader where
  instrument_mapper : String → String := fun s => s
  slippage_bps : ℚ := 5
  max_retries : ℕ := 3

/-- The outcome of `_submit_with_retry`: the returned `OrderResult` (or
`None`), the journal entries recorded, and how many broker calls were
made. -/
structure SubmitOutcome where
  result : Option OrderResult
  journal : List OrderPayload
  broker_calls : ℕ
deriving Repr, DecidableEq

/-- The retry loop of `_submit_with_retry` (`live_trading.py:116-148`),
recursing over the remaining attempts: a raised exception records nothing
and retries; a returned result is journaled, then a rejection retries and a
success is returned. Exhaustion yields `none`. -/
def submitLoop (broker : ℕ → Except Unit OrderResult)
    (side symbol figi : String) (lots : ℤ) (price_ws : Option ℚ) :
    ℕ → ℕ → SubmitOutcome
  | _, 0 => ⟨none, [], 0⟩
  | attempt, fuel + 1 =>
      match broker attempt with
      | .error _ =>
          let rest := submitLoop broker side symbol figi lots price_ws
            (attempt + 1) fuel
          ⟨rest.result, rest.journal, rest.broker_calls + 1⟩
      | .ok r =>
          let payload : OrderPayload :=
            { side := pyLower side, symbol := symbol, figi := figi,
              lots := lots, limit_price := price_ws, order_id := r.order_id,
              status := r.status, lots_executed := r.lots_executed,
              message := r.message, attempt := attempt }
          if is_success r then ⟨some r, [payload], 1⟩
          else
            let rest := submitLoop broker side symbol figi lots price_ws
              (attempt + 1) fuel
            ⟨rest.result, payload :: rest.journal, rest.broker_calls + 1⟩

/-- `LiveTrader._submit_with_retry` (`live_trading.py:102-153`): a
non-positive lot count returns `None` immediately — no broker call, no
retry, no journal entry; otherwise the symbol is mapped, slippage applied,
and the retry loop runs from attempt 1 up to `max_retries`. -/
def LiveTrader.submit_with_retry (lt : LiveTrader)
    (broker : ℕ → Except Unit OrderResult) (side symbol : String) (lots : ℤ)
    (limit_price : Option ℚ) : SubmitOutcome :=
  if lots ≤ 0 then ⟨none, [], 0⟩
  else
    let figi := lt.instrument_mapper symbol
    let price_ws := apply_slippage lt.slippage_bps limit_price side
    submitLoop broker side symbol figi lots price_ws 1 lt.max_retries

/-! ## Association-list facts -/

theorem alistLookup_set_self {β : Type} (l : List (String × β)) (k : String)
    (v : β) : alistLookup (alistSet l k v) k = some v := by
  induction l with
  | nil => simp [alistSet, alistLookup]
  | cons p t ih =>
      obtain ⟨a, b⟩ := p
      by_cases hk : a = k
      · simp [alistSet, hk, alistLookup]
      · simp [alistSet, hk, alistLookup, ih]

theorem alistLookup_set_ne {β : Type} (l : List (String × β)) (k k' : String)
    (v : β) (h : k' ≠ k) :
    alistLookup (alistSet l k v) k' = alistLookup l k' := by
  induction l with
  | nil => simp [alistSet, alistLookup, Ne.symm h]
  | cons p t ih =>
      obtain ⟨a, b⟩ := p
      by_cases hk : a = k
      · subst hk
        simp [alistSet, alistLookup, Ne.symm h]
      · simp only [alistSet, if_neg hk]
        by_cases hk' : a = k'
        · simp [alistLookup, hk']
        · simp [alistLookup, hk', ih]

theorem alistLookup_erase_self {β : Type} (l : List (String × β)) (k : String) :
    alistLookup (alistErase l k) k = none := by
  induction l with
  | nil => simp [alistErase, alistLookup]
  | cons p t ih =>
      obtain ⟨a, b⟩ := p
      by_cases hk : a = k
      · simp [alistErase, hk, ih]
      · simp [alistErase, hk, alistLookup, ih]

/-! ## Concrete states used to instantiate the quantified claims -/

/-- A concrete open long position: entered at 100 for 10 lots with a 5%
stop and 10% take-profit. -/
def posEx : Position :=
  { entry_price := 100, quantity := 10, stop_price := 95, take_profit := 110,
    trailing_stop := 95, last_price := 100 }

/-- A concrete manager holding `posEx`, constructed today (day index 0)
with one million of capital and the dataclass default limits. -/
def rmEx : RiskManager :=
  { last_equity_date := 0, portfolio_equity := 1000000,
    peak_equity := 1000000, day_start_equity := 1000000,
    positions := [("SBER", posEx)] }

/-! ## Claims -/

/-- C9: for every non-positive price and every manager state — halted or
not — `allowed_position_size` returns 0, so the sizing divisions are never
reached on a non-positive price. -/
theorem allowed_size_zero_of_nonpositive_price (rm : RiskManager) (price : ℚ)
    (symbol : Option String) (h : price ≤ 0) :
    rm.allowed_position_size price symbol = 0 := by
  simp [RiskManager.allowed_position_size, h]

/-- Witness for C9 at `rmEx` (not halted) and price `-1`. -/
theorem allowed_size_zero_of_nonpositive_price_witness :
    rmEx.halt_trading = false ∧ rmEx.allowed_position_size (-1) none = 0 :=
  ⟨rfl, allowed_size_zero_of_nonpositive_price rmEx (-1) none (by norm_num)⟩

/-- C10: `exit_position` is idempotent on the ledger — a second exit of the
same symbol changes nothing, and exiting a symbol with no open position
leaves the manager untouched. -/
theorem exit_position_idempotent (rm : RiskManager) (symbol : String) :
    (rm.exit_position symbol).exit_position symbol = rm.exit_position symbol ∧
    (alistLookup rm.positions symbol = none → rm.exit_position symbol = rm) := by
  cases h : alistLookup rm.positions symbol with
  | none =>
      have e : rm.exit_position symbol = rm := by
        simp [RiskManager.exit_position, h]
      exact ⟨by rw [e]; exact e, fun _ => e⟩
  | some pos =>
      have e1 : rm.exit_position symbol =
          { rm with positions := alistErase rm.positions symbol } := by
        simp [RiskManager.exit_position, h]
      refine ⟨?_, fun hn => by simp [h] at hn⟩
      rw [e1]
      simp [RiskManager.exit_position, alistLookup_erase_self]

/-- Witness for C10 at `rmEx` and a symbol with no open position. -/
theorem exit_position_idempotent_witness :
    alistLookup rmEx.positions "GAZP" = none ∧
    rmEx.exit_position "GAZP" = rmEx := by
  have h : alistLookup rmEx.positions "GAZP" = none := by
    simp [rmEx, alistLookup]
  exact ⟨h, (exit_position_idempotent rmEx "GAZP").2 h⟩

/-- C8: `update_position_price` (MarkPrice) touches only `last_price` of an
existing position — quantity, entry, stop, trailing and take-profit are
carried over unchanged, other symbols' entries and every non-ledger field
are untouched — and for an unknown symbol it is the identity (no implicit
insert). -/
theorem update_position_price_frame (rm : RiskManager) (symbol : String)
    (price : ℚ) :
    (alistLookup rm.positions symbol = none →
      rm.update_position_price symbol price = rm) ∧
    (∀ pos, alistLookup rm.positions symbol = some pos →
      alistLookup (rm.update_position_price symbol price).positions symbol =
        some { entry_price := pos.entry_price, quantity := pos.quantity,
               stop_price := pos.stop_price, take_profit := pos.take_profit,
               trailing_stop := pos.trailing_stop, last_price := price } ∧
      (∀ s, s ≠ symbol →
        alistLookup (rm.update_position_price symbol price).positions s =
          alistLookup rm.positions s) ∧
      { rm.update_position_price symbol price with positions := rm.positions }
        = rm) := by
  constructor
  · intro h
    simp [RiskManager.update_position_price, h]
  · intro pos h
    have e : rm.update_position_price symbol price =
        { rm with positions :=
            alistSet rm.positions symbol { pos with last_price := price } } := by
      simp [RiskManager.update_position_price, h]
    refine ⟨?_, fun s hs => ?_, ?_⟩
    · rw [e]
      exact alistLookup_set_self rm.positions symbol _
    · rw [e]
      exact alistLookup_set_ne rm.positions symbol s _ hs
    · rw [e]

/-- Witness for C8 at `rmEx`, marking `SBER` to 123. -/
theorem update_position_price_frame_witness :
    alistLookup rmEx.positions "SBER" = some posEx ∧
    alistLookup (rmEx.update_position_price "SBER" 123).positions "SBER" =
      some { entry_price := 100, quantity := 10, stop_price := 95,
             take_profit := 110, trailing_stop := 95, last_price := 123 } := by
  have h : alistLookup rmEx.positions "SBER" = some posEx := by
    simp [rmEx, alistLookup]
  exact ⟨h, ((update_position_price_frame rmEx "SBER" 123).2 posEx h).1⟩

/-- C2: the daily-loss halt. Concretely, from a manager built today with
1,000,000 of capital, `max_daily_loss_pct = 0.1` and an open position,
`update_equity 1000000` followed by `update_equity 850000` on the same
calendar day leaves `halt_trading = true` and an empty ledger (and after
the first call `day_start_equity = 1000000` indeed holds). Generally, any
same-day equity update whose daily loss
`(day_start_equity − e)/day_start_equity` reaches `max_daily_loss_pct`
(with `day_start_equity ≥ 1e-9`, where the source's float-guard denominator
`max(day_start, 1e-9)` coincides with the claim's) removes every position
and sets `halt_trading`. -/
theorem update_equity_daily_loss_halts :
    (((rmEx.update_equity 1000000 0).update_equity 850000 0).halt_trading = true ∧
      ((rmEx.update_equity 1000000 0).update_equity 850000 0).positions = [] ∧
      (rmEx.update_equity 1000000 0).day_start_equity = 1000000) ∧
    (∀ (rm : RiskManager) (e : ℚ) (today : ℕ),
      today = rm.last_equity_date →
      eps9 ≤ rm.day_start_equity →
      (rm.day_start_equity - e) / rm.day_start_equity ≥ rm.max_daily_loss_pct →
      (rm.update_equity e today).halt_trading = true ∧
      (rm.update_equity e today).positions = []) := by
  constructor
  · refine ⟨?_, ?_, ?_⟩ <;>
      norm_num [rmEx, RiskManager.update_equity, eps9, max_def]
  · intro rm e today h1 h2 h3
    have hmax : max rm.day_start_equity eps9 = rm.day_start_equity :=
      max_eq_left h2
    have hne : ¬ today ≠ rm.last_equity_date := by simp [h1]
    simp only [RiskManager.update_equity, if_neg hne]
    by_cases hp : e > rm.peak_equity
    · simp only [if_pos hp, hmax, ge_iff_le]
      rw [if_pos h3]
      exact ⟨rfl, rfl⟩
    · simp only [if_neg hp, hmax, ge_iff_le]
      rw [if_pos h3]
      exact ⟨rfl, rfl⟩

/-- Witness for C2's general clause at `rmEx` with a 15% same-day loss. -/
theorem update_equity_daily_loss_halts_witness :
    (rmEx.update_equity 850000 0).halt_trading = true ∧
    (rmEx.update_equity 850000 0).positions = [] :=
  update_equity_daily_loss_halts.2 rmEx 850000 0 rfl
    (by norm_num [rmEx, eps9]) (by norm_num [rmEx])

/-- C3: halt semantics. A halted manager sizes every request to 0,
whatever the price and symbol; no ledger operation
(`update_position_price`, `register_entry`, `check_exit`, `exit_position`,
`clear_positions`) ever changes `halt_trading`; a same-day `update_equity`
never clears an active halt; and the first `update_equity` of a new
calendar day clears it (its post-reset daily loss is `0`, below any
positive `max_daily_loss_pct`). -/
theorem halt_trading_semantics :
    (∀ (rm : RiskManager) (price : ℚ) (symbol : Option String),
        rm.halt_trading = true → rm.allowed_position_size price symbol = 0) ∧
    (∀ (rm : RiskManager) (s : String) (p : ℚ),
        (rm.update_position_price s p).halt_trading = rm.halt_trading) ∧
    (∀ (rm : RiskManager) (s : String) (p q : ℚ),
        (rm.register_entry s p q).halt_trading = rm.halt_trading) ∧
    (∀ (rm : RiskManager) (s : String) (p : ℚ),
        (rm.check_exit s p).2.halt_trading = rm.halt_trading) ∧
    (∀ (rm : RiskManager) (s : String),
        (rm.exit_position s).halt_trading = rm.halt_trading) ∧
    (∀ rm : RiskManager, rm.clear_positions.halt_trading = rm.halt_trading) ∧
    (∀ (rm : RiskManager) (e : ℚ) (today : ℕ),
        today = rm.last_equity_date → rm.halt_trading = true →
        (rm.update_equity e today).halt_trading = true) ∧
    (∀ (rm : RiskManager) (e : ℚ) (today : ℕ),
        today ≠ rm.last_equity_date → 0 < rm.max_daily_loss_pct →
        (rm.update_equity e today).halt_trading = false) := by
  refine ⟨?_, ?_, ?_, ?_, ?_, ?_, ?_, ?_⟩
  · intro rm price symbol h
    simp [RiskManager.allowed_position_size, h]
  · intro rm s p
    unfold RiskManager.update_position_price
    cases alistLookup rm.positions s <;> rfl
  · intro rm s p q
    unfold RiskManager.register_entry
    split_ifs <;> rfl
  · intro rm s p
    unfold RiskManager.check_exit
    cases alistLookup rm.positions s with
    | none => rfl
    | some pos =>
        by_cases hq : ¬ pos.quantity < 0 <;> simp only [hq] <;> split_ifs <;> rfl
  · intro rm s
    unfold RiskManager.exit_position
    cases alistLookup rm.positions s <;> rfl
  · intro rm
    rfl
  · intro rm e today h1 h2
    have hne : ¬ today ≠ rm.last_equity_date := by simp [h1]
    simp only [RiskManager.update_equity, if_neg hne]
    split_ifs <;> simp [h2]
  · intro rm e today h1 h2
    simp only [RiskManager.update_equity, if_pos h1]
    split_ifs with hp hl hl
    · exact absurd (le_trans hl (by simp [sub_self])) (not_le.mpr h2)
    · rfl
    · exact absurd (le_trans hl (by simp [sub_self])) (not_le.mpr h2)
    · rfl

/-- Witness for C3 at a halted copy of `rmEx`: sizing is 0 at price 100,
and the first update of day 1 clears the halt. -/
theorem halt_trading_semantics_witness :
    ({ rmEx with halt_trading := true } : RiskManager).allowed_position_size
        100 none = 0 ∧
    (({ rmEx with halt_trading := true } : RiskManager).update_equity
        900000 1).halt_trading = false :=
  ⟨halt_trading_semantics.1 { rmEx with halt_trading := true } 100 none rfl,
   halt_trading_semantics.2.2.2.2.2.2.2 { rmEx with halt_trading := true }
     900000 1 (by simp [rmEx]) (by norm_num [rmEx])⟩

/-- The position written back by `check_exit`'s long branch: `last_price`
set, trailing stop ratcheted upward when `price × (1 − stop_loss_pct)`
exceeds the current value. -/
def ratchetLong (rm : RiskManager) (q : Position) (p : ℚ) : Position :=
  { q with
    last_price := p
    trailing_stop :=
      if p * (1 - rm.stop_loss_pct) > q.trailing_stop
      then p * (1 - rm.stop_loss_pct) else q.trailing_stop }

/-- The position written back by `check_exit`'s short branch: `last_price`
set, trailing stop ratcheted downward. -/
def ratchetShort (rm : RiskManager) (q : Position) (p : ℚ) : Position :=
  { q with
    last_price := p
    trailing_stop :=
      if p * (1 + rm.stop_loss_pct) < q.trailing_stop
      then p * (1 + rm.stop_loss_pct) else q.trailing_stop }

/-- The state returned by `check_exit` does not depend on which exit branch
fired: it is the ledger with the touched position's `last_price` set and its
trailing stop ratcheted. -/
theorem check_exit_state (rm : RiskManager) (s : String) (p : ℚ) :
    (rm.check_exit s p).2 =
      match alistLookup rm.positions s with
      | none => rm
      | some q =>
          if ¬ q.quantity < 0 then
            { rm with positions := alistSet rm.positions s (ratchetLong rm q p) }
          else
            { rm with positions := alistSet rm.positions s (ratchetShort rm q p) } := by
  unfold RiskManager.check_exit ratchetLong ratchetShort
  cases alistLookup rm.positions s with
  | none => rfl
  | some q =>
      dsimp only
      split_ifs <;> rfl

/-- Any single `check_exit` call — on any symbol — preserves every open
position's quantity and moves its trailing stop only upward when long,
only downward when short. -/
theorem check_exit_trailing_step (rm : RiskManager) (s' : String) (p : ℚ)
    (s : String) (pos : Position)
    (h : alistLookup rm.positions s = some pos) :
    ∃ pos', alistLookup ((rm.check_exit s' p).2).positions s = some pos' ∧
      pos'.quantity = pos.quantity ∧
      (¬ pos.quantity < 0 → pos.trailing_stop ≤ pos'.trailing_stop) ∧
      (pos.quantity < 0 → pos'.trailing_stop ≤ pos.trailing_stop) := by
  rw [check_exit_state]
  cases h2 : alistLookup rm.positions s' with
  | none =>
      exact ⟨pos, h, rfl, fun _ => le_refl _, fun _ => le_refl _⟩
  | some q =>
      dsimp only
      by_cases hq : ¬ q.quantity < 0
      · rw [if_pos hq]
        by_cases hs : s = s'
        · subst hs
          rw [h] at h2
          injection h2 with h2
          subst h2
          refine ⟨ratchetLong rm pos p, alistLookup_set_self rm.positions s _,
            rfl, fun _ => ?_, fun hlt => absurd hlt hq⟩
          simp only [ratchetLong]
          split_ifs with hr
          · exact le_of_lt hr
          · exact le_refl _
        · refine ⟨pos, ?_, rfl, fun _ => le_refl _, fun _ => le_refl _⟩
          dsimp only
          rw [alistLookup_set_ne rm.positions s' s _ hs]
          exact h
      · rw [if_neg hq]
        rw [not_not] at hq
        by_cases hs : s = s'
        · subst hs
          rw [h] at h2
          injection h2 with h2
          subst h2
          refine ⟨ratchetShort rm pos p, alistLookup_set_self rm.positions s _,
            rfl, fun hcon => absurd hq hcon, fun _ => ?_⟩
          simp only [ratchetShort]
          split_ifs with hr
          · exact le_of_lt hr
          · exact le_refl _
        · refine ⟨pos, ?_, rfl, fun _ => le_refl _, fun _ => le_refl _⟩
          dsimp only
          rw [alistLookup_set_ne rm.positions s' s _ hs]
          exact h

/-- A sequence of `check_exit` calls, folded left to right. -/
def RiskManager.check_exit_many : RiskManager → List (String × ℚ) → RiskManager
  | rm, [] => rm
  | rm, (s, p) :: rest => RiskManager.check_exit_many ((rm.check_exit s p).2) rest

/-- Across any sequence of `check_exit` calls, an open position keeps its
quantity, and its trailing stop moves only upward when long and only
downward when short. -/
theorem check_exit_many_trailing (calls : List (String × ℚ)) :
    ∀ (rm : RiskManager) (s : String) (pos : Position),
      alistLookup rm.positions s = some pos →
      ∃ pos', alistLookup (rm.check_exit_many calls).positions s = some pos' ∧
        pos'.quantity = pos.quantity ∧
        (¬ pos.quantity < 0 → pos.trailing_stop ≤ pos'.trailing_stop) ∧
        (pos.quantity < 0 → pos'.trailing_stop ≤ pos.trailing_stop) := by
  induction calls with
  | nil =>
      intro rm s pos h
      exact ⟨pos, h, rfl, fun _ => le_refl _, fun _ => le_refl _⟩
  | cons c rest ih =>
      intro rm s pos h
      obtain ⟨c1, c2⟩ := c
      obtain ⟨pos₁, h₁, hq₁, hl₁, hs₁⟩ := check_exit_trailing_step rm c1 c2 s pos h
      obtain ⟨pos', h', hq', hl', hs'⟩ := ih ((rm.check_exit c1 c2).2) s pos₁ h₁
      refine ⟨pos', h', by rw [hq', hq₁], fun hL => ?_, fun hS => ?_⟩
      · exact (hl₁ hL).trans (hl' (by rw [hq₁]; exact hL))
      · exact (hs' (by rw [hq₁]; exact hS)).trans (hs₁ hS)

/-- C4: the trailing-stop ratchet. A single `check_exit` on a long position
rewrites it to `ratchetLong` — trailing stop moved to
`price × (1 − stop_loss_pct)` exactly when that exceeds the current value,
kept otherwise — and on a short position to `ratchetShort` (mirror);
consequently, across any sequence of `check_exit` calls a long position's
trailing stop is non-decreasing and a short position's non-increasing. -/
theorem trailing_stop_ratchet_monotone :
    (∀ (rm : RiskManager) (s : String) (p : ℚ) (pos : Position),
        alistLookup rm.positions s = some pos → ¬ pos.quantity < 0 →
        alistLookup ((rm.check_exit s p).2).positions s =
          some (ratchetLong rm pos p)) ∧
    (∀ (rm : RiskManager) (s : String) (p : ℚ) (pos : Position),
        alistLookup rm.positions s = some pos → pos.quantity < 0 →
        alistLookup ((rm.check_exit s p).2).positions s =
          some (ratchetShort rm pos p)) ∧
    (∀ (calls : List (String × ℚ)) (rm : RiskManager) (s : String)
        (pos pos' : Position),
        alistLookup rm.positions s = some pos → ¬ pos.quantity < 0 →
        alistLookup (rm.check_exit_many calls).positions s = some pos' →
        pos.trailing_stop ≤ pos'.trailing_stop) ∧
    (∀ (calls : List (String × ℚ)) (rm : RiskManager) (s : String)
        (pos pos' : Position),
        alistLookup rm.positions s = some pos → pos.quantity < 0 →
        alistLookup (rm.check_exit_many calls).positions s = some pos' →
        pos'.trailing_stop ≤ pos.trailing_stop) := by
  refine ⟨?_, ?_, ?_, ?_⟩
  · intro rm s p pos h hq
    rw [check_exit_state, h]
    dsimp only
    rw [if_pos hq]
    exact alistLookup_set_self rm.positions s _
  · intro rm s p pos h hq
    rw [check_exit_state, h]
    dsimp only
    rw [if_neg (not_not.mpr hq)]
    exact alistLookup_set_self rm.positions s _
  · intro calls rm s pos pos' h hq h'
    obtain ⟨pos₁, h₁, _, hl₁, _⟩ := check_exit_many_trailing calls rm s pos h
    rw [h₁] at h'
    injection h' with h'
    exact h' ▸ hl₁ hq
  · intro calls rm s pos pos' h hq h'
    obtain ⟨pos₁, h₁, _, _, hs₁⟩ := check_exit_many_trailing calls rm s pos h
    rw [h₁] at h'
    injection h' with h'
    exact h' ▸ hs₁ hq

/-- Witness for C4 at `rmEx`: marking `SBER` (long, entered at 100, 5%
stop) to 120 ratchets the trailing stop from 95 to 114. -/
theorem trailing_stop_ratchet_monotone_witness :
    alistLookup ((rmEx.check_exit "SBER" 120).2).positions "SBER" =
      some (ratchetLong rmEx posEx 120) ∧
    (ratchetLong rmEx posEx 120).trailing_stop = 114 := by
  constructor
  · exact trailing_stop_ratchet_monotone.1 rmEx "SBER" 120 posEx
      (by simp [rmEx, alistLookup]) (by norm_num [posEx])
  · norm_num [ratchetLong, rmEx, posEx]

/-- The per-instrument override block only ever shrinks the size. -/
theorem applyInstrumentLimits_le (rm : RiskManager) (price : ℚ)
    (symbol : Option String) (size : ℚ) :
    rm.applyInstrumentLimits price symbol size ≤ size := by
  unfold RiskManager.applyInstrumentLimits
  cases symbol with
  | none => exact le_refl _
  | some s =>
      cases hE : s.data.isEmpty with
      | true => simp [hE]
      | false =>
          simp only [hE, Bool.false_eq_true, if_false]
          cases hL : alistLookup rm.instrument_limits (pyUpper s) with
          | none => exact le_refl _
          | some limit =>
              dsimp only
              have hInner :
                  (match limit.max_position_pct with
                    | some v =>
                        if v ≠ 0 then min size (rm.portfolio_equity * v / price)
                        else size
                    | none => size) ≤ size := by
                cases limit.max_position_pct with
                | none => exact le_refl _
                | some v =>
                    dsimp only
                    split_ifs
                    · exact min_le_left _ _
                    · exact le_refl _
              cases limit.max_lots with
              | none => exact hInner
              | some n => exact le_trans (min_le_left _ _) hInner

/-- The remaining-portfolio-capacity bound exactly as the claim words it:
`max(0, equity × effective_cap − gross_exposure) / price` with
`effective_cap = min(max_leverage, max_portfolio_exposure_pct)` — the
exposure percentage applied unconditionally, `1.0` included. Stated for
comparison against the source's `exposureCapPct`. -/
def specRemainingCapacity (rm : RiskManager) (price : ℚ) : ℚ :=
  max 0 (rm.portfolio_equity *
    min rm.max_leverage rm.max_portfolio_exposure_pct -
    rm.currentGrossExposure) / price

/-- A manager with `max_leverage = 2` and `max_portfolio_exposure_pct = 1`:
equity 1000, 20% per-trade risk, 5% stop, 200% per-position cap, no open
positions. -/
def rmC1 : RiskManager :=
  { last_equity_date := 0, portfolio_equity := 1000, peak_equity := 1000,
    day_start_equity := 1000, per_trade_risk_pct := 1/5, stop_loss_pct := 1/20,
    max_position_pct := 2, max_leverage := 2, max_portfolio_exposure_pct := 1 }

/-- Counterexample to C1: with `max_leverage = 2` and
`max_portfolio_exposure_pct = 1`, the source sizes 2000 lots at price 1 on
1000 of equity — double the 1000 the claim's
`min(max_leverage, max_portfolio_exposure_pct)` cap permits, because the
source skips an exposure percentage of exactly `1.0` as a no-op sentinel. -/
theorem exposure_cap_sentinel_counterexample :
    rmC1.allowed_position_size 1 none = 2000 ∧
    specRemainingCapacity rmC1 1 = 1000 ∧
    ¬ ((rmC1.allowed_position_size 1 none : ℚ) ≤ specRemainingCapacity rmC1 1) := by
  refine ⟨?_, ?_, ?_⟩ <;>
    norm_num [RiskManager.allowed_position_size,
      RiskManager.applyInstrumentLimits, RiskManager.exposureCapPct,
      RiskManager.currentGrossExposure, specRemainingCapacity, rmC1, eps9,
      min_def, max_def]

/-- C1 as amended: `allowed_position_size` caps by remaining capacity
`max(0, equity × exposureCapPct − gross)/price`, where the effective cap is
`max_leverage` when positive (else `1.0`), reduced by
`max_portfolio_exposure_pct` only when that value is neither `0.0` nor
`1.0` — so `1.0` is a skipped no-op sentinel, not a real 100% cap, and with
`max_leverage > 1` and `max_portfolio_exposure_pct = 1` the cap is
`max_leverage × equity`. -/
theorem exposure_cap_amended :
    (∀ (rm : RiskManager) (price : ℚ) (symbol : Option String), 0 < price →
      (rm.allowed_position_size price symbol : ℚ) ≤
        max 0 (rm.portfolio_equity * rm.exposureCapPct -
          rm.currentGrossExposure) / price) ∧
    (∀ rm : RiskManager, rm.max_portfolio_exposure_pct = 1 →
      rm.exposureCapPct = (if rm.max_leverage > 0 then rm.max_leverage else 1)) ∧
    (∀ rm : RiskManager, rm.max_portfolio_exposure_pct ≠ 0 →
      rm.max_portfolio_exposure_pct ≠ 1 →
      rm.exposureCapPct =
        min (if rm.max_leverage > 0 then rm.max_leverage else 1)
          rm.max_portfolio_exposure_pct) := by
  refine ⟨?_, ?_, ?_⟩
  · intro rm price symbol hp
    unfold RiskManager.allowed_position_size
    by_cases hh : rm.halt_trading ∨ price ≤ 0
    · rw [if_pos hh]
      push_cast
      exact div_nonneg (le_max_left _ _) (le_of_lt hp)
    · rw [if_neg hh]
      dsimp only
      refine le_trans (Int.floor_le _) ?_
      refine max_le (div_nonneg (le_max_left _ _) hp.le) ?_
      refine le_trans (applyInstrumentLimits_le _ _ _ _) ?_
      refine le_trans (min_le_right _ _) ?_
      exact div_le_div_of_nonneg_left (le_max_left _ _) hp (le_max_left _ _)
  · intro rm h
    simp [RiskManager.exposureCapPct, h]
  · intro rm h1 h2
    simp [RiskManager.exposureCapPct, h1, h2]

/-- Witness for C1's amended cap at `rmC1`, price 1. -/
theorem exposure_cap_amended_witness :
    (rmC1.allowed_position_size 1 none : ℚ) ≤
      max 0 (rmC1.portfolio_equity * rmC1.exposureCapPct -
        rmC1.currentGrossExposure) / 1 ∧
    rmC1.exposureCapPct = 2 :=
  ⟨exposure_cap_amended.1 rmC1 1 none (by norm_num),
   exposure_cap_amended.2.1 rmC1 rfl |>.trans (by norm_num [rmC1])⟩

/-- An absent source contributes nothing. -/
theorem sourceResult_none (symbol : String) :
    sourceResult none symbol = none := rfl

/-- C5: `get_price` resolution order and isolation. A stream call that
raises (or returns a price failing validation) is swallowed — the result is
exactly that of a provider with no stream source, so the failure is never
surfaced and REST is still tried. In order: a validated stream price wins
and is cached; otherwise a validated REST price wins and is cached;
otherwise a fresh cache entry; otherwise a stale cache entry; otherwise the
last close from on-disk history. -/
theorem get_price_fallback_order :
    (∀ (dp : DataProvider) (symbol : String) (now : ℚ)
        (f : String → Except Unit (Option ℚ)),
        dp.enabled = true → dp.stream = some f →
        (f (pyUpper symbol) = .error () ∨
          (∃ v, f (pyUpper symbol) = .ok v ∧ defaultValidator v = false)) →
        (dp.get_price symbol now).1 =
          (DataProvider.get_price { dp with stream := none } symbol now).1 ∧
        (dp.get_price symbol now).2.cache =
          (DataProvider.get_price { dp with stream := none } symbol now).2.cache) ∧
    (∀ (dp : DataProvider) (symbol : String) (now p : ℚ),
        dp.enabled = true →
        sourceResult dp.stream (pyUpper symbol) = some p →
        dp.get_price symbol now =
          (some p, dp.updateCache (pyUpper symbol) p now)) ∧
    (∀ (dp : DataProvider) (symbol : String) (now p : ℚ),
        dp.enabled = true →
        sourceResult dp.stream (pyUpper symbol) = none →
        sourceResult dp.rest (pyUpper symbol) = some p →
        dp.get_price symbol now =
          (some p, dp.updateCache (pyUpper symbol) p now)) ∧
    (∀ (dp : DataProvider) (symbol : String) (now c : ℚ),
        dp.enabled = true →
        sourceResult dp.stream (pyUpper symbol) = none →
        sourceResult dp.rest (pyUpper symbol) = none →
        dp.getCached (pyUpper symbol) false now = some c →
        dp.get_price symbol now = (some c, dp)) ∧
    (∀ (dp : DataProvider) (symbol : String) (now c : ℚ),
        dp.enabled = true →
        sourceResult dp.stream (pyUpper symbol) = none →
        sourceResult dp.rest (pyUpper symbol) = none →
        dp.getCached (pyUpper symbol) false now = none →
        dp.getCached (pyUpper symbol) true now = some c →
        dp.get_price symbol now = (some c, dp)) ∧
    (∀ (dp : DataProvider) (symbol : String) (now : ℚ),
        dp.enabled = true →
        sourceResult dp.stream (pyUpper symbol) = none →
        sourceResult dp.rest (pyUpper symbol) = none →
        alistLookup dp.cache (pyUpper symbol) = none →
        dp.get_price symbol now = (dp.histClose (pyUpper symbol), dp)) := by
  refine ⟨?_, ?_, ?_, ?_, ?_, ?_⟩
  · intro dp symbol now f h1 h2 h3
    have hs : sourceResult dp.stream (pyUpper symbol) = none := by
      rcases h3 with h | ⟨v, hv, hval⟩ <;>
        simp [sourceResult, h2, *]
    refine ⟨?_, ?_⟩ <;>
    · simp only [DataProvider.get_price, h1, hs]
      cases hr : sourceResult dp.rest (pyUpper symbol) with
      | some p => simp [hr, sourceResult_none, DataProvider.updateCache]
      | none =>
          cases hcl : alistLookup dp.cache (pyUpper symbol) with
          | none =>
              simp [hr, sourceResult_none, DataProvider.getCached, hcl,
                DataProvider.latest_price]
          | some pr =>
              by_cases ht : now - pr.2 ≤ dp.cache_ttl <;>
                simp [hr, sourceResult_none, DataProvider.getCached, hcl, ht]
  · intro dp symbol now p h1 h2
    simp [DataProvider.get_price, h1, h2]
  · intro dp symbol now p h1 h2 h3
    simp [DataProvider.get_price, h1, h2, h3]
  · intro dp symbol now c h1 h2 h3 h4
    simp [DataProvider.get_price, h1, h2, h3, h4]
  · intro dp symbol now c h1 h2 h3 h4 h5
    simp [DataProvider.get_price, h1, h2, h3, h4, h5]
  · intro dp symbol now h1 h2 h3 h4
    simp [DataProvider.get_price, DataProvider.latest_price,
      DataProvider.getCached, h1, h2, h3, h4]

/-- A provider whose stream raises and whose REST source returns 91. -/
def dpC5 : DataProvider :=
  { stream := some (fun _ => .error ()),
    rest := some (fun _ => .ok (some 91)) }

/-- Witness for C5 at `dpC5`: the stream failure is swallowed and the REST
value 91 is returned. -/
theorem get_price_fallback_order_witness :
    dpC5.get_price "SBER" 0 =
      (some 91, dpC5.updateCache (pyUpper "SBER") 91 0) :=
  get_price_fallback_order.2.2.1 dpC5 "SBER" 0 91 rfl rfl
    (by simp [sourceResult, dpC5, defaultValidator])

/-- A provider with the network disabled, an empty cache and history on
disk carrying a last close of 42. -/
def dpC6 : DataProvider := { enabled := false, histClose := fun _ => some 42 }

/-- Counterexample to C6: with the network disabled, a symbol absent from
the cache but present in on-disk history resolves to `none` (not-found) —
the disabled path returns only the cache and never consults history. -/
theorem disabled_network_history_counterexample :
    (dpC6.get_price "AAA" 0).1 = none ∧
    dpC6.histClose "AAA" = some 42 ∧
    dpC6.cache = [] :=
  ⟨rfl, rfl, rfl⟩

/-- C6 as amended: after `disable_network`, `get_price` resolves from the
in-memory cache alone (stale entries allowed, state untouched) — a symbol
with no cache entry yields not-found even when history on disk has it —
and `enable_network` restores the full resolution order by re-enabling the
network flag. -/
theorem disable_network_cache_only :
    (∀ (dp : DataProvider) (symbol : String) (now : ℚ),
        dp.enabled = false →
        dp.get_price symbol now = (dp.getCached (pyUpper symbol) true now, dp)) ∧
    (∀ dp : DataProvider,
        dp.disable_network.enabled = false ∧ dp.enable_network.enabled = true) := by
  constructor
  · intro dp symbol now h
    simp [DataProvider.get_price, h]
  · intro dp
    exact ⟨rfl, rfl⟩

/-- Witness for C6's amended clause at `dpC6`. -/
theorem disable_network_cache_only_witness :
    dpC6.get_price "AAA" 0 = (dpC6.getCached (pyUpper "AAA") true 0, dpC6) :=
  disable_network_cache_only.1 dpC6 "AAA" 0 rfl

/-- C7 as amended: submitting with `lots ≤ 0` is a no-op returning `None` —
no broker call, no retry, no journal entry — rather than an exception; but
`None` is also what a submission that exhausts its retries returns, so the
return value alone does not distinguish a skip from a failure. -/
theorem submit_nonpositive_lots_noop :
    ∀ (lt : LiveTrader) (broker : ℕ → Except Unit OrderResult)
      (side symbol : String) (lots : ℤ) (limit_price : Option ℚ),
      lots ≤ 0 →
      lt.submit_with_retry broker side symbol lots limit_price =
        ⟨none, [], 0⟩ := by
  intro lt broker side symbol lots lp h
  simp [LiveTrader.submit_with_retry, h]

/-- A broker that rejects every attempt. -/
def brokerRej : ℕ → Except Unit OrderResult :=
  fun _ => .ok { order_id := "x", status := "rejected" }

/-- A trader with the dataclass defaults (3 retries, 5 bps slippage). -/
def ltEx : LiveTrader := {}

/-- Witness for C7's amended clause: a sell for −3 lots is skipped with no
broker call and nothing journaled. -/
theorem submit_nonpositive_lots_noop_witness :
    ltEx.submit_with_retry brokerRej "sell" "B" (-3) (some 10) =
      ⟨none, [], 0⟩ :=
  submit_nonpositive_lots_noop ltEx brokerRej "sell" "B" (-3) (some 10)
    (by norm_num)

/-- Counterexample to C7's distinguishability clause: a skipped submission
(lots = 0) and a genuinely failed submission (1 lot, rejected on all three
attempts) both return `None` — the caller cannot tell them apart from the
return value. -/
theorem submit_skip_indistinguishable_counterexample :
    (ltEx.submit_with_retry brokerRej "buy" "A" 0 none).result = none ∧
    (ltEx.submit_with_retry brokerRej "buy" "A" 1 none).result = none ∧
    (ltEx.submit_with_retry brokerRej "buy" "A" 1 none).broker_calls = 3 ∧
    (ltEx.submit_with_retry brokerRej "buy" "A" 0 none).result =
      (ltEx.submit_with_retry brokerRej "buy" "A" 1 none).result := by
  refine ⟨rfl, ?_, ?_, ?_⟩ <;>
    simp [LiveTrader.submit_with_retry, submitLoop, brokerRej, ltEx,
      is_success, strContains, apply_slippage, pyLower, hasSub, leadsWith]

end MoexBot
